import Mathlib

/-!
Shallow embedding of the suggestion-request pipeline of the
marketplace-ai-assistant backend: the response validator
(src/services/response-parser.ts, two-argument version), the circuit
breaker (src/services/circuit-breaker.ts), the plan resolver
(src/backend/src/services/plan.ts), the daily rate-limit middleware
(src/backend/src/middleware/rate-limit.ts, current version with the
X-RateLimit-Reset header), the job-result store
(src/backend/src/services/suggestion-results.ts) and the POST /suggest
route handler (src/backend/src/routes/suggest.ts).

Timestamps are epoch milliseconds modelled as Nat.  JavaScript numbers
appearing in JSON payloads are modelled as Rat (exact, decidable order);
this is faithful for every comparison the code performs on them.
-/

namespace Marketplace

/-- Model of a JavaScript JSON value as produced by JSON.parse. -/
inductive Json where
  | null
  | bool (b : Bool)
  | num (q : Rat)
  | str (s : String)
  | arr (elems : List Json)
  | obj (fields : List (String × Json))

/-- Property access obj[name] on a parsed JSON value: on an object the last
binding for the key wins (JSON.parse keeps the last duplicate); on every
other value (including arrays) the named properties used by this code are
absent, which JavaScript reads as undefined, modelled as none. -/
def Json.getField : Json → String → Option Json
  | .obj fields, name => fields.foldl (fun acc kv => if kv.1 = name then some kv.2 else acc) none
  | _, _ => none

/-- The opening-brace character, written by code point to keep string
literals free of braces. -/
def lbrace : Char := Char.ofNat 123

/-- The closing-brace character. -/
def rbrace : Char := Char.ofNat 125

/-- The apostrophe character. -/
def apos : Char := Char.ofNat 39

/-- JSON whitespace accepted between tokens by JSON.parse. -/
def isJsonWs (c : Char) : Bool :=
  c = ' ' || c = '\t' || c = '\n' || c = '\r'

/-- Skip JSON whitespace. -/
def skipWs (cs : List Char) : List Char := cs.dropWhile isJsonWs

/-- Value of a hexadecimal digit, for string escapes of the form backslash-u. -/
def parseHexDigit (c : Char) : Option Nat :=
  if '0' ≤ c ∧ c ≤ '9' then some (c.toNat - 48)
  else if 'a' ≤ c ∧ c ≤ 'f' then some (c.toNat - 87)
  else if 'A' ≤ c ∧ c ≤ 'F' then some (c.toNat - 55)
  else none

/-- Parse the body of a JSON string after the opening quote, returning the
decoded characters and the input remaining after the closing quote. -/
def parseStringChars : Nat → List Char → Option (List Char × List Char)
  | 0, _ => none
  | _, [] => none
  | fuel+1, c :: cs =>
    if c = '"' then some ([], cs)
    else if c = '\\' then
      match cs with
      | [] => none
      | e :: cs2 =>
        if e = 'u' then
          match cs2 with
          | a :: b :: c3 :: d :: cs3 =>
            match parseHexDigit a, parseHexDigit b, parseHexDigit c3, parseHexDigit d with
            | some ha, some hb, some hc, some hd =>
              let code := ((ha * 16 + hb) * 16 + hc) * 16 + hd
              match parseStringChars fuel cs3 with
              | some (content, rest) => some (Char.ofNat code :: content, rest)
              | none => none
            | _, _, _, _ => none
          | _ => none
        else
          match (if e = '"' then some '"' else if e = '\\' then some '\\'
                 else if e = '/' then some '/' else if e = 'b' then some (Char.ofNat 8)
                 else if e = 'f' then some (Char.ofNat 12) else if e = 'n' then some '\n'
                 else if e = 'r' then some '\r' else if e = 't' then some '\t'
                 else none) with
          | some decoded =>
            match parseStringChars fuel cs2 with
            | some (content, rest) => some (decoded :: content, rest)
            | none => none
          | none => none
    else
      match parseStringChars fuel cs with
      | some (content, rest) => some (c :: content, rest)
      | none => none

/-- Decimal digits to a natural number. -/
def digitsToNat (ds : List Char) : Nat :=
  ds.foldl (fun acc c => acc * 10 + (c.toNat - 48)) 0

/-- Parse an optional fraction part: a dot followed by at least one digit. -/
def parseFrac : List Char → Option (List Char × List Char)
  | '.' :: rest =>
    let fd := rest.takeWhile Char.isDigit
    if fd.isEmpty then none else some (fd, rest.drop fd.length)
  | cs => some (([] : List Char), cs)

/-- Parse an optional exponent part. -/
def parseExponent : List Char → Option (Int × List Char)
  | [] => some (0, [])
  | c :: rest =>
    if c = 'e' ∨ c = 'E' then
      let (sgn, rest2) : Int × List Char :=
        match rest with
        | '+' :: r => (1, r)
        | '-' :: r => (-1, r)
        | r => (1, r)
      let ds := rest2.takeWhile Char.isDigit
      if ds.isEmpty then none
      else some (sgn * (digitsToNat ds : Int), rest2.drop ds.length)
    else some (0, c :: rest)

/-- Parse a JSON number into an exact rational, built with mkRat from the
integer mantissa over the power of ten given by the fraction length and the
exponent. -/
def parseJsonNumber (cs0 : List Char) : Option (Rat × List Char) :=
  let (neg, cs1) : Bool × List Char :=
    match cs0 with
    | '-' :: rest => (true, rest)
    | _ => (false, cs0)
  let intDigits := cs1.takeWhile Char.isDigit
  if intDigits.isEmpty then none
  else
    match parseFrac (cs1.drop intDigits.length) with
    | none => none
    | some (fracDigits, cs2) =>
      match parseExponent cs2 with
      | none => none
      | some (expVal, cs3) =>
        let k := fracDigits.length
        let mant : Int := (digitsToNat intDigits * 10 ^ k + digitsToNat fracDigits : Nat)
        let mant : Int := if neg then -mant else mant
        let q : Rat :=
          if 0 ≤ expVal then mkRat (mant * (10 : Int) ^ expVal.toNat) (10 ^ k)
          else mkRat mant (10 ^ k * 10 ^ (-expVal).toNat)
        some (q, cs3)

mutual

/-- Parse one JSON value, returning it and the remaining input. -/
def parseJsonValue : Nat → List Char → Option (Json × List Char)
  | 0, _ => none
  | fuel+1, cs =>
    match skipWs cs with
    | [] => none
    | c :: rest =>
      if c = '"' then
        match parseStringChars (rest.length + 1) rest with
        | some (content, r) => some (.str (String.mk content), r)
        | none => none
      else if c = '[' then
        match skipWs rest with
        | ']' :: r => some (.arr [], r)
        | r2 =>
          match parseJsonArrayItems fuel r2 with
          | some (elems, r) => some (.arr elems, r)
          | none => none
      else if c = lbrace then
        let r2 := skipWs rest
        if r2.head? = some rbrace then some (.obj [], r2.tail)
        else
          match parseJsonObjItems fuel r2 with
          | some (fields, r) => some (.obj fields, r)
          | none => none
      else if c = 't' then
        match rest with
        | 'r' :: 'u' :: 'e' :: r => some (.bool true, r)
        | _ => none
      else if c = 'f' then
        match rest with
        | 'a' :: 'l' :: 's' :: 'e' :: r => some (.bool false, r)
        | _ => none
      else if c = 'n' then
        match rest with
        | 'u' :: 'l' :: 'l' :: r => some (.null, r)
        | _ => none
      else
        match parseJsonNumber (c :: rest) with
        | some (q, r) => some (.num q, r)
        | none => none

/-- Parse the comma-separated items of a nonempty JSON array, including the
closing bracket. -/
def parseJsonArrayItems : Nat → List Char → Option (List Json × List Char)
  | 0, _ => none
  | fuel+1, cs =>
    match parseJsonValue fuel cs with
    | none => none
    | some (v, rest) =>
      match skipWs rest with
      | ',' :: r =>
        match parseJsonArrayItems fuel r with
        | some (vs, r2) => some (v :: vs, r2)
        | none => none
      | ']' :: r => some ([v], r)
      | _ => none

/-- Parse the comma-separated members of a nonempty JSON object, including
the closing brace. -/
def parseJsonObjItems : Nat → List Char → Option (List (String × Json) × List Char)
  | 0, _ => none
  | fuel+1, cs =>
    match skipWs cs with
    | [] => none
    | c :: rest =>
      if c = '"' then
        match parseStringChars (rest.length + 1) rest with
        | none => none
        | some (keyChars, r1) =>
          match skipWs r1 with
          | ':' :: r2 =>
            match parseJsonValue fuel r2 with
            | none => none
            | some (v, r3) =>
              match skipWs r3 with
              | ',' :: r4 =>
                match parseJsonObjItems fuel r4 with
                | some (fields, r5) => some ((String.mk keyChars, v) :: fields, r5)
                | none => none
              | r4 =>
                if r4.head? = some rbrace then some ([(String.mk keyChars, v)], r4.tail)
                else none
          | _ => none
      else none

end

/-- Model of JSON.parse: parse one value surrounded by optional whitespace;
anything trailing is a syntax error (none). -/
def jsonParse (s : String) : Option Json :=
  match parseJsonValue (2 * s.length + 2) s.data with
  | some (v, rest) => if skipWs rest = [] then some v else none
  | none => none

/-- String operations used by the validator, implemented over the character
list so that they evaluate by kernel reduction: trim from the left. -/
def strTrimLeft (s : String) : String := String.mk (s.data.dropWhile Char.isWhitespace)

/-- Trim whitespace from the right. -/
def strTrimRight (s : String) : String :=
  String.mk ((s.data.reverse.dropWhile Char.isWhitespace).reverse)

/-- Model of String.prototype.trim. -/
def strTrim (s : String) : String := strTrimLeft (strTrimRight s)

/-- Prefix test. -/
def strStartsWith (s p : String) : Bool := p.data.isPrefixOf s.data

/-- Suffix test. -/
def strEndsWith (s p : String) : Bool := p.data.isSuffixOf s.data

/-- Drop the first n characters. -/
def strDrop (s : String) (n : Nat) : String := String.mk (s.data.drop n)

/-- Drop the last n characters. -/
def strDropRight (s : String) (n : Nat) : String := String.mk (s.data.take (s.data.length - n))

/-- Lower-case a string, character by character. -/
def strToLower (s : String) : String := String.mk (s.data.map Char.toLower)

/-- Case-sensitive substring containment. -/
def strContains (hay needle : String) : Bool :=
  (List.range (hay.data.length + 1)).any (fun i => needle.data.isPrefixOf (hay.data.drop i))

/-- Case-insensitive substring containment, modelling the tests the source
performs with simple alternation-of-literals regexes under the i flag; the
needle is given in lower case. -/
def strContainsCI (hay needle : String) : Bool :=
  strContains (strToLower hay) needle

/-- Model of the JavaScript String.prototype.slice(0, n) used to truncate the
suggested message, taking the first n characters. -/
def strTake (s : String) (n : Nat) : String := String.mk (s.data.take n)

/-- The JavaScript Math.min on the exact rationals standing in for numbers. -/
def ratMin (a b : Rat) : Rat := if a ≤ b then a else b

/-- The JavaScript Math.max. -/
def ratMax (a b : Rat) : Rat := if a ≤ b then b else a

/-- Model of replacing the trailing code-fence marker: the regex replaces a
final run of three backticks followed only by whitespace; if the trimmed-right
string does not end in the marker, the string is unchanged. -/
def stripFenceSuffix (s : String) : String :=
  let t := strTrimRight s
  if strEndsWith t "```" then strDropRight t 3 else s

/-- Model of lines 42-48 of the response parser: trim, then strip a leading
three-backtick-json or plain three-backtick fence together with the
whitespace that follows it, and a trailing fence. -/
def stripFence (s : String) : String :=
  let c := strTrim s
  if strStartsWith c "```json" then
    stripFenceSuffix (strTrimLeft (strDrop c 7))
  else if strStartsWith c "```" then
    stripFenceSuffix (strTrimLeft (strDrop c 3))
  else c

/-- The validated suggestion payload (types/index SuggestionResponse). -/
structure SuggestionResponse where
  suggestedMessage : String
  intentScore : Rat
  reasoning : String
  nextAction : String
deriving DecidableEq

/-- The allowedNextActions constant of the response parser. -/
def allowedNextActions : List String :=
  ["ask_availability", "send_booking_link", "answer_question", "close"]

/-- The isRecord helper: in JavaScript, typeof value is the string object and
value is not null exactly for objects and arrays among JSON.parse results. -/
def isRecord : Json → Bool
  | .obj _ => true
  | .arr _ => true
  | _ => false

/-- The isSuggestionResponse schema guard of the response parser: the four
fields must exist with the right runtime types, the two strings nonempty, the
intent score within [0, 1] and the next action in the fixed enum. -/
def isSuggestionResponse (v : Json) : Bool :=
  isRecord v &&
  (match v.getField "suggestedMessage" with
   | some (.str s) => decide (0 < s.length)
   | _ => false) &&
  (match v.getField "intentScore" with
   | some (.num q) => decide (0 ≤ q) && decide (q ≤ 1)
   | _ => false) &&
  (match v.getField "reasoning" with
   | some (.str s) => decide (0 < s.length)
   | _ => false) &&
  (match v.getField "nextAction" with
   | some (.str s) => allowedNextActions.contains s
   | _ => false)

/-- The string i-apostrophe-m-space-an-space-ai, built from the code point of
the apostrophe. -/
def imAnAiPattern : String := "i" ++ String.singleton apos ++ "m an ai"

/-- The forbiddenPatterns constant: each case-insensitive regex in the source
is an alternation-free literal (the optional trailing s of developer
instructions adds nothing to a containment test), so each is modelled by its
lower-case literal text. -/
def forbiddenPatterns : List String :=
  ["system prompt", "system message", "developer message", "developer instruction",
   "as an ai", "i am an ai", imAnAiPattern, "language model"]

/-- The parseClaudeResponse validator (two-argument version, the one imported
by the route and the worker): strip fences, JSON-parse, check the schema,
reject forbidden meta content in message or reasoning, reject vehicle-sale
language outside the sell_item goal, then return the payload with the message
trimmed and truncated to 200 characters, the score clamped into [0, 1] and the
reasoning trimmed.  Throwing is modelled as returning error with the thrown
message. -/
def parseClaudeResponse (rawText conversationGoal : String) : Except String SuggestionResponse :=
  match jsonParse (stripFence rawText) with
  | none => .error ("Claude returned invalid JSON. Raw response: " ++ stripFence rawText)
  | some parsed =>
    if isSuggestionResponse parsed then
      match parsed.getField "suggestedMessage", parsed.getField "intentScore",
            parsed.getField "reasoning", parsed.getField "nextAction" with
      | some (.str msg), some (.num score), some (.str reasoning), some (.str nextAction) =>
        if forbiddenPatterns.any (fun p => strContainsCI msg p || strContainsCI reasoning p) then
          .error "Claude response contained disallowed meta content"
        else if conversationGoal ≠ "sell_item" ∧
            (strContainsCI msg "vehicle" || strContainsCI msg "test drive"
              || strContainsCI msg "inventory") = true then
          .error "Car language leaked into non-sell flow"
        else
          .ok { suggestedMessage := strTake (strTrim msg) 200,
                intentScore := ratMin 1 (ratMax 0 score),
                reasoning := strTrim reasoning,
                nextAction := nextAction }
      | _, _, _, _ => .error "Claude response does not match SuggestionResponse schema"
    else
      .error "Claude response does not match SuggestionResponse schema"

/-- Circuit state of the breaker; the constructor opened is the source state
named open, which is a keyword in Lean. -/
inductive CircuitState where
  | closed
  | opened
  | half_open
deriving DecidableEq

/-- The persisted circuit snapshot. -/
structure CircuitBreakerSnapshot where
  state : CircuitState
  failureCount : Nat
  lastFailureAt : Option Nat
  nextAttemptAt : Option Nat
deriving DecidableEq

/-- The FAILURE_THRESHOLD constant. -/
def FAILURE_THRESHOLD : Nat := 3

/-- The OPEN_DURATION_MS constant. -/
def OPEN_DURATION_MS : Nat := 30000

/-- The HALF_OPEN_MAX_FAILURES constant. -/
def HALF_OPEN_MAX_FAILURES : Nat := 1

/-- The default (fresh) circuit snapshot. -/
def getDefaultState : CircuitBreakerSnapshot :=
  { state := .closed, failureCount := 0, lastFailureAt := none, nextAttemptAt := none }

/-- The assertCircuitClosed admission check over the stored snapshot: while
open, a set nonzero nextAttemptAt that has been reached moves the state to
half_open (returned as the snapshot to save) and admits; otherwise the
CLAUDE_CIRCUIT_OPEN sentinel is thrown.  The JavaScript truthiness test on
nextAttemptAt is false for null and for 0. -/
def assertCircuitClosed (now : Nat) (s : CircuitBreakerSnapshot) :
    Except String (Option CircuitBreakerSnapshot) :=
  if s.state = .opened then
    match s.nextAttemptAt with
    | some t =>
      if t ≠ 0 ∧ t ≤ now then
        .ok (some { s with state := .half_open, nextAttemptAt := none })
      else .error "CLAUDE_CIRCUIT_OPEN"
    | none => .error "CLAUDE_CIRCUIT_OPEN"
  else .ok none

/-- The recordSuccess outcome recording: a save of the default closed snapshot
happens exactly when the stored state is not closed or the failure counter is
nonzero; none models no write. -/
def recordSuccess (s : CircuitBreakerSnapshot) : Option CircuitBreakerSnapshot :=
  if s.state ≠ .closed ∨ s.failureCount ≠ 0 then some getDefaultState else none

/-- The recordFailure outcome recording: half_open reopens at one failure,
closed opens on reaching the threshold, otherwise the incremented counter is
stored with the state still closed. -/
def recordFailure (now : Nat) (s : CircuitBreakerSnapshot) : CircuitBreakerSnapshot :=
  let failureCount := s.failureCount + 1
  if s.state = .half_open ∧ HALF_OPEN_MAX_FAILURES ≤ failureCount then
    { state := .opened, failureCount := failureCount,
      lastFailureAt := some now, nextAttemptAt := some (now + OPEN_DURATION_MS) }
  else if FAILURE_THRESHOLD ≤ failureCount then
    { state := .opened, failureCount := failureCount,
      lastFailureAt := some now, nextAttemptAt := some (now + OPEN_DURATION_MS) }
  else
    { state := .closed, failureCount := failureCount,
      lastFailureAt := some now, nextAttemptAt := none }

/-- An account row restricted to the fields the plan resolver and the rate
limiter read or write. -/
structure AccountRow where
  plan : Option String
  plan_tier : String
  plan_expires_at : Option Nat
deriving DecidableEq

/-- The accounts table, keyed by account id. -/
def AccountsDb := String → Option AccountRow

/-- The resolved plan. -/
structure AccountPlan where
  plan : String
  isActive : Bool
deriving DecidableEq

/-- The getAccountPlan resolver: missing account throws Account not found; an
expiry in the past durably downgrades the row to free with the expiry cleared
and returns free and inactive; otherwise the stored plan (the plan column,
falling back to plan_tier) is returned with isActive exactly when it is not
free. -/
def getAccountPlan (db : AccountsDb) (now : Nat) (accountId : String) :
    Except String (AccountPlan × AccountsDb) :=
  match db accountId with
  | none => .error "Account not found"
  | some account =>
    let currentPlan := account.plan.getD account.plan_tier
    match account.plan_expires_at with
    | some t =>
      if t < now then
        .ok ({ plan := "free", isActive := false },
             fun id => if id = accountId then
                 some { plan := some "free", plan_tier := "free", plan_expires_at := none }
               else db id)
      else .ok ({ plan := currentPlan, isActive := currentPlan != "free" }, db)
    | none => .ok ({ plan := currentPlan, isActive := currentPlan != "free" }, db)

/-- The daily limits per plan tier, at the default values of the
RATE_LIMIT environment variables; an unknown tier indexes the LIMITS object
at an absent key, yielding undefined, modelled as none. -/
def LIMITS (plan : String) : Option Nat :=
  if plan = "free" then some 15
  else if plan = "pro" then some 100
  else if plan = "enterprise" then some 1000
  else none

/-- The rate-counter store: each key holds a count and an optional expiry in
epoch milliseconds. -/
def CounterStore := String → Option (Nat × Option Nat)

/-- Read a key honouring expiry: a key whose deadline has been reached is
gone. -/
def counterGet (st : CounterStore) (now : Nat) (key : String) : Option (Nat × Option Nat) :=
  match st key with
  | some (c, some e) => if e ≤ now then none else some (c, some e)
  | v => v

/-- The INCR primitive: missing or expired keys restart at one with no
expiry; live keys keep their expiry. -/
def counterIncr (st : CounterStore) (now : Nat) (key : String) : Nat × CounterStore :=
  match counterGet st now key with
  | none => (1, fun k => if k = key then some (1, none) else st k)
  | some (c, exp) => (c + 1, fun k => if k = key then some (c + 1, exp) else st k)

/-- The EXPIRE primitive: set the deadline of a live key to now plus the
given seconds. -/
def counterExpire (st : CounterStore) (now : Nat) (key : String) (ttlSeconds : Nat) : CounterStore :=
  fun k => if k = key then
      (match st key with
       | some (c, _) => some (c, some (now + ttlSeconds * 1000))
       | none => none)
    else st k

/-- The TTL primitive in whole seconds (redis rounds to the nearest second);
absent keys and keys without expiry yield 0, which the middleware treats the
same way as the negative redis codes: no Reset header. -/
def counterTtl (st : CounterStore) (now : Nat) (key : String) : Nat :=
  match counterGet st now key with
  | some (_, some e) => (e - now + 500) / 1000
  | _ => 0

/-- Milliseconds per day. -/
def msPerDay : Nat := 86400000

/-- Midnight UTC following the given instant, as computed from
Date.UTC(year, month, date + 1). -/
def endOfDayUtc (now : Nat) : Nat := (now / msPerDay + 1) * msPerDay

/-- The per-account per-UTC-day counter key; the ISO date segment of the key
is modelled by the day number, which identifies UTC days just as the
YYYY-MM-DD slice does. -/
def rateLimitKey (accountId : String) (now : Nat) : String :=
  "rate_limit:" ++ accountId ++ ":" ++ toString (now / msPerDay)

/-- What the rate-limit middleware did to the reply: a sent status ends the
request in the middleware; none lets it continue to the route with the
accumulated headers. -/
structure MiddlewareReply where
  sentStatus : Option Nat
  errorCode : Option String
  headers : List (String × String)
deriving DecidableEq

/-- The rateLimitMiddleware (current version): resolve the plan (404 when the
account is missing), increment the day counter, set its expiry to the seconds
remaining until UTC midnight on the first increment, deny with 429
RATE_LIMIT_EXCEEDED when the count exceeds the limit, and otherwise set the
X-RateLimit headers and let the request continue.  The denial reply is sent
before any header-setting line runs.  An unknown tier makes the limit
undefined: the comparison with undefined admits, and stringifying undefined
for the header throws into the fail-open catch, so the request continues with
no headers; the increment side effects persist. -/
def rateLimitMiddleware (db : AccountsDb) (st : CounterStore) (now : Nat)
    (accountId : Option String) : MiddlewareReply × CounterStore × AccountsDb :=
  match accountId with
  | none => ({ sentStatus := some 401, errorCode := none, headers := [] }, st, db)
  | some aid =>
    match getAccountPlan db now aid with
    | .error _ => ({ sentStatus := some 404, errorCode := none, headers := [] }, st, db)
    | .ok (planInfo, db2) =>
      let key := rateLimitKey aid now
      let count := (counterIncr st now key).1
      let st2 := (counterIncr st now key).2
      let resetAt :=
        if count = 1 then endOfDayUtc now
        else if 0 < counterTtl st2 now key then now + counterTtl st2 now key * 1000 else 0
      let st3 :=
        if count = 1 then counterExpire st2 now key (max 1 ((endOfDayUtc now - now) / 1000))
        else st2
      match LIMITS planInfo.plan with
      | none => ({ sentStatus := none, errorCode := none, headers := [] }, st3, db2)
      | some limit =>
        if limit < count then
          ({ sentStatus := some 429, errorCode := some "RATE_LIMIT_EXCEEDED", headers := [] },
           st3, db2)
        else
          ({ sentStatus := none, errorCode := none,
             headers :=
               [("X-RateLimit-Limit", toString limit),
                ("X-RateLimit-Remaining", toString (limit - count))]
               ++ (if 0 < resetAt then [("X-RateLimit-Reset", toString resetAt)] else []) },
           st3, db2)

/-- Run a sequence of requests for one account through the middleware,
threading the counter store and the accounts table. -/
def runRequests (db : AccountsDb) (st : CounterStore) (aid : String) :
    List Nat → List MiddlewareReply × CounterStore
  | [] => ([], st)
  | t :: ts =>
    let step := rateLimitMiddleware db st t (some aid)
    let rest := runRequests step.2.2 step.2.1 aid ts
    (step.1 :: rest.1, rest.2)

/-- The typeof x equals string check on an accessed property. -/
def isStringField : Option Json → Bool
  | some (.str _) => true
  | _ => false

/-- The getSuggestionResult reader over the raw stored value: absent keys,
invalid JSON, a null payload (whose member access throws inside the guarded
block) and payloads lacking a string jobId, status or updatedAt all yield
null; otherwise the parsed value is returned as stored. -/
def getSuggestionResult (raw : Option String) : Option Json :=
  match raw with
  | none => none
  | some txt =>
    match jsonParse txt with
    | none => none
    | some parsed =>
      if isStringField (parsed.getField "jobId") &&
          isStringField (parsed.getField "status") &&
          isStringField (parsed.getField "updatedAt") then
        some parsed
      else none

/-- Reply of the GET /suggest/:jobId route. -/
inductive StatusReply where
  | unauthorized
  | badRequest
  | notFound
  | found (result : Json)

/-- The GET /suggest/:jobId handler: 401 without auth context, 400 for a
missing or empty jobId parameter, 404 when the stored result resolves to
null, otherwise the stored result. -/
def suggestStatusHandler (accountId : Option String) (jobIdParam : Option String)
    (stored : Option String) : StatusReply :=
  match accountId with
  | none => .unauthorized
  | some _ =>
    let jobId := jobIdParam.getD ""
    if jobId = "" then .badRequest
    else
      match getSuggestionResult stored with
      | none => .notFound
      | some v => .found v

/-- One stored suggestion job result as written by the orchestrator. -/
structure SuggestionJobResult where
  jobId : String
  status : String
  suggestion : Option SuggestionResponse
  error : Option String
  updatedAt : String
deriving DecidableEq

/-- Externally visible effects of the POST /suggest handler, in program
order: the thread upsert, audit action inserts, job-result writes, the
upstream model call and circuit-state writes. -/
inductive Effect where
  | threadUpsert (accountId fbThreadId : String)
  | actionInsert (actionType : String)
  | jobWrite (accountId jobId : String) (result : SuggestionJobResult)
  | claudeCall
  | circuitSave (s : CircuitBreakerSnapshot)
deriving DecidableEq

/-- Reply of the POST /suggest handler. -/
structure RouteReply where
  status : Nat
  code : Option String
  message : Option String
  body : Option SuggestionJobResult
deriving DecidableEq

/-- Request-body fields the handler branches on; listing and message fields
only feed the prompt for the upstream call, which is modelled by the
claudeOutcome parameter. -/
structure SuggestBody where
  fbThreadId : String
  conversationGoal : Option String
  customInstructions : Option String
  savedPresetId : Option String
deriving DecidableEq

/-- JavaScript truthiness of an optional string: undefined and the empty
string are falsy. -/
def isTruthy : Option String → Bool
  | none => false
  | some s => s != ""

/-- The POST /suggest handler over a validated body: auth guard, thread
upsert, plan resolution, the free-tier gate on custom instructions and saved
presets, the audit insert, then either the queued branch (a pending job) or
the inline branch: write processing, check the circuit, call the model
(claudeOutcome is the upstream result), validate, record the outcome on the
circuit and write the final job state.  A throw after the processing write is
caught: the failure is recorded, a failed result (with the friendly message
for the CLAUDE_CIRCUIT_OPEN sentinel) is written, and the rethrow reaches the
outer catch, which adds an error audit entry and replies 500 with the thrown
message. -/
def suggestHandler (useQueue : Bool) (db : AccountsDb) (circuit : CircuitBreakerSnapshot)
    (now : Nat) (accountId userId : Option String) (requestId queueJobId : String)
    (body : SuggestBody) (claudeOutcome : Except String String) :
    RouteReply × List Effect × AccountsDb :=
  match accountId, userId with
  | some aid, some _ =>
    let effs0 := [Effect.threadUpsert aid body.fbThreadId]
    let conversationGoal := body.conversationGoal.getD "general_assistance"
    (match getAccountPlan db now aid with
     | .error msg =>
       ({ status := 500, code := none, message := some msg, body := none },
        effs0 ++ [Effect.actionInsert "error"], db)
     | .ok (planInfo, db2) =>
       if planInfo.plan = "free" ∧ (isTruthy body.customInstructions
           || isTruthy body.savedPresetId) = true then
         ({ status := 403, code := some "PLAN_UPGRADE_REQUIRED",
            message := some "Upgrade your plan to use custom instructions or presets.",
            body := none },
          effs0, db2)
       else
         let effs1 := effs0 ++ [Effect.actionInsert "suggestion_requested"]
         if useQueue then
           let pending : SuggestionJobResult :=
             { jobId := queueJobId, status := "pending", suggestion := none,
               error := none, updatedAt := toString now }
           ({ status := 200, code := none, message := none, body := some pending },
            effs1 ++ [Effect.jobWrite aid queueJobId pending], db2)
         else
           let jobId := requestId
           let processing : SuggestionJobResult :=
             { jobId := jobId, status := "processing", suggestion := none,
               error := none, updatedAt := toString now }
           let effs2 := effs1 ++ [Effect.jobWrite aid jobId processing]
           (match assertCircuitClosed now circuit with
            | .error sentinel =>
              let failed : SuggestionJobResult :=
                { jobId := jobId, status := "failed", suggestion := none,
                  error := some "Claude temporarily unavailable. Please retry shortly.",
                  updatedAt := toString now }
              ({ status := 500, code := none, message := some sentinel, body := none },
               effs2 ++ [Effect.circuitSave (recordFailure now circuit)]
                     ++ [Effect.jobWrite aid jobId failed] ++ [Effect.actionInsert "error"], db2)
            | .ok saved =>
              let circuit2 := saved.getD circuit
              let effs3 := effs2
                ++ (match saved with | some s2 => [Effect.circuitSave s2] | none => [])
                ++ [Effect.claudeCall]
              (match claudeOutcome with
               | .error msg =>
                 let failed : SuggestionJobResult :=
                   { jobId := jobId, status := "failed", suggestion := none,
                     error := some msg, updatedAt := toString now }
                 ({ status := 500, code := none, message := some msg, body := none },
                  effs3 ++ [Effect.circuitSave (recordFailure now circuit2)]
                        ++ [Effect.jobWrite aid jobId failed] ++ [Effect.actionInsert "error"], db2)
               | .ok content =>
                 match parseClaudeResponse content conversationGoal with
                 | .error msg =>
                   let failed : SuggestionJobResult :=
                     { jobId := jobId, status := "failed", suggestion := none,
                       error := some msg, updatedAt := toString now }
                   ({ status := 500, code := none, message := some msg, body := none },
                    effs3 ++ [Effect.circuitSave (recordFailure now circuit2)]
                          ++ [Effect.jobWrite aid jobId failed] ++ [Effect.actionInsert "error"], db2)
                 | .ok suggestion =>
                   let completed : SuggestionJobResult :=
                     { jobId := jobId, status := "completed", suggestion := some suggestion,
                       error := none, updatedAt := toString now }
                   ({ status := 200, code := none, message := none, body := some completed },
                    effs3
                      ++ (match recordSuccess circuit2 with
                          | some s2 => [Effect.circuitSave s2]
                          | none => [])
                      ++ [Effect.jobWrite aid jobId completed]
                      ++ [Effect.actionInsert "suggestion_generated"], db2))))
  | _, _ =>
    ({ status := 401, code := none, message := some "Missing auth context", body := none },
     [], db)

/-- A match-on-string-field expression is true only when the field is a
string. -/
theorem matchStr_true {o : Option Json} {f : String → Bool}
    (h : (match o with | some (.str s) => f s | _ => false) = true) :
    ∃ s, o = some (.str s) ∧ f s = true := by
  match o, h with
  | some (.str s), h => exact ⟨s, rfl, h⟩

/-- A match-on-number-field expression is true only when the field is a
number. -/
theorem matchNum_true {o : Option Json} {f : Rat → Bool}
    (h : (match o with | some (.num q) => f q | _ => false) = true) :
    ∃ q, o = some (.num q) ∧ f q = true := by
  match o, h with
  | some (.num q), h => exact ⟨q, rfl, h⟩

/-- A successful validator run decomposes as: the fence-stripped text parses,
the schema guard passes, the four fields are present with their runtime
types, and the returned suggestion is the trimmed, truncated, clamped
payload. -/
theorem parseClaudeResponse_ok_shape (raw goal : String) (s : SuggestionResponse)
    (h : parseClaudeResponse raw goal = .ok s) :
    ∃ (v : Json) (msg : String) (score : Rat) (reasoning nextAction : String),
      jsonParse (stripFence raw) = some v ∧
      isSuggestionResponse v = true ∧
      v.getField "suggestedMessage" = some (.str msg) ∧
      v.getField "intentScore" = some (.num score) ∧
      v.getField "reasoning" = some (.str reasoning) ∧
      v.getField "nextAction" = some (.str nextAction) ∧
      s = { suggestedMessage := strTake (strTrim msg) 200,
            intentScore := ratMin 1 (ratMax 0 score),
            reasoning := strTrim reasoning,
            nextAction := nextAction } := by
  unfold parseClaudeResponse at h
  split at h
  · exact absurd h (by simp)
  case h_2 v heq =>
    split at h
    case isTrue hschema =>
      split at h
      case h_1 msg score reasoning nextAction hm hs hr hn =>
        split at h
        · exact absurd h (by simp)
        · split at h
          · exact absurd h (by simp)
          · exact ⟨v, msg, score, reasoning, nextAction, heq, hschema, hm, hs, hr, hn,
              (Except.ok.injEq _ _ ▸ h).symm⟩
      case h_2 =>
        exact absurd h (by simp)
    case isFalse =>
      exact absurd h (by simp)

/-- Bounds extracted from a passing schema guard: the intent score field is
within the unit interval. -/
theorem isSuggestionResponse_score_bounds {v : Json} {q : Rat}
    (hschema : isSuggestionResponse v = true)
    (hq : v.getField "intentScore" = some (.num q)) :
    0 ≤ q ∧ q ≤ 1 := by
  unfold isSuggestionResponse at hschema
  rw [hq] at hschema
  simp only [Bool.and_eq_true] at hschema
  have := hschema.1.1.2
  simpa using this

/-- The clamp of the validator is the identity on scores already inside the
unit interval. -/
theorem clamp_identity (q : Rat) (h0 : 0 ≤ q) (h1 : q ≤ 1) :
    ratMin 1 (ratMax 0 q) = q := by
  rw [ratMax, if_pos h0, ratMin]
  by_cases h : (1 : Rat) ≤ q
  · rw [if_pos h]
    exact le_antisymm h h1
  · rw [if_neg h]

/-- Truncation really bounds the length. -/
theorem strTake_length_le (s : String) (n : Nat) : (strTake s n).length ≤ n := by
  show (s.data.take n).length ≤ n
  simp [List.length_take]

/-- C2: while the stored circuit state is open with a set cooldown deadline,
an admission check before the deadline throws the CLAUDE_CIRCUIT_OPEN
sentinel (and a handler run against such a circuit never reaches the
upstream call); once the deadline has passed, the next admission check saves
the half_open state and admits.  From that half_open state an admission
check passes without a further write — the one trial call of the
assert-call-record protocol — and recording the trial outcome leaves
half_open: a failure reopens with a fresh deadline (before which admission
checks reject again) and a success resets to the default closed state. -/
theorem c2_circuit_open_admission (s : CircuitBreakerSnapshot) (t now : Nat)
    (hopen : s.state = .opened) (hnext : s.nextAttemptAt = some t) (htpos : 0 < t) :
    (now < t →
      assertCircuitClosed now s = .error "CLAUDE_CIRCUIT_OPEN" ∧
      (∀ (useQueue : Bool) (db : AccountsDb) (accountId userId : Option String)
         (requestId queueJobId : String) (body : SuggestBody)
         (claudeOutcome : Except String String),
        Effect.claudeCall ∉
          (suggestHandler useQueue db s now accountId userId requestId queueJobId
            body claudeOutcome).2.1)) ∧
    (t ≤ now →
      assertCircuitClosed now s = .ok (some { s with state := .half_open, nextAttemptAt := none }) ∧
      (∀ now2, assertCircuitClosed now2 { s with state := .half_open, nextAttemptAt := none } =
        .ok none) ∧
      (∀ now3,
        (recordFailure now3 { s with state := .half_open, nextAttemptAt := none }).state =
          .opened ∧
        (recordFailure now3 { s with state := .half_open, nextAttemptAt := none }).nextAttemptAt =
          some (now3 + OPEN_DURATION_MS) ∧
        (∀ now4, now4 < now3 + OPEN_DURATION_MS →
          assertCircuitClosed now4
            (recordFailure now3 { s with state := .half_open, nextAttemptAt := none }) =
            .error "CLAUDE_CIRCUIT_OPEN")) ∧
      recordSuccess { s with state := .half_open, nextAttemptAt := none } =
        some getDefaultState) := by
  constructor
  · intro hlt
    have hrej : assertCircuitClosed now s = .error "CLAUDE_CIRCUIT_OPEN" := by
      simp only [assertCircuitClosed, hopen, hnext, if_pos rfl]
      have : ¬ (t ≠ 0 ∧ t ≤ now) := by
        rintro ⟨-, hle⟩
        omega
      simp [this]
    refine ⟨hrej, ?_⟩
    intro useQueue db accountId userId requestId queueJobId body claudeOutcome
    unfold suggestHandler
    rcases accountId with _ | aid <;> rcases userId with _ | uid <;> simp only
    · simp
    · simp
    · simp
    · rcases hPlan : getAccountPlan db now aid with msg | pr
      · simp [hPlan]
      · simp only [hPlan]
        split
        · simp
        · split
          · simp
          · simp only [hrej]
            simp
  · intro hge
    have hcond : (t ≠ 0 ∧ t ≤ now) := ⟨by omega, hge⟩
    refine ⟨?_, ?_, ?_, ?_⟩
    · simp only [assertCircuitClosed, hopen, if_pos rfl, hnext]
      simp [hcond]
    · intro now2
      simp [assertCircuitClosed]
    · intro now3
      refine ⟨?_, ?_, ?_⟩
      · simp [recordFailure, HALF_OPEN_MAX_FAILURES]
      · simp [recordFailure, HALF_OPEN_MAX_FAILURES]
      · intro now4 h4
        have hne : ¬ (now3 + OPEN_DURATION_MS ≠ 0 ∧ now3 + OPEN_DURATION_MS ≤ now4) := by
          rintro ⟨-, hle⟩
          omega
        simp only [recordFailure, HALF_OPEN_MAX_FAILURES, assertCircuitClosed]
        simp [hne]
        exact fun _ => h4
    · simp [recordSuccess]

/-- Witness for C2 at a concrete open snapshot with deadline 5000: rejection
at time 4999 and the full half-open protocol at time 5000. -/
theorem c2_witness :
    (4999 < 5000 ∧ 5000 ≤ 5000) ∧
    assertCircuitClosed 4999
      { state := .opened, failureCount := 3, lastFailureAt := some 100,
        nextAttemptAt := some 5000 } = .error "CLAUDE_CIRCUIT_OPEN" ∧
    assertCircuitClosed 5000
      { state := .opened, failureCount := 3, lastFailureAt := some 100,
        nextAttemptAt := some 5000 } =
      .ok (some { state := .half_open, failureCount := 3, lastFailureAt := some 100,
                  nextAttemptAt := none }) := by
  have h := c2_circuit_open_admission
    { state := .opened, failureCount := 3, lastFailureAt := some 100, nextAttemptAt := some 5000 }
    5000 4999 rfl rfl (by decide)
  have h2 := c2_circuit_open_admission
    { state := .opened, failureCount := 3, lastFailureAt := some 100, nextAttemptAt := some 5000 }
    5000 5000 rfl rfl (by decide)
  exact ⟨⟨by decide, by decide⟩, (h.1 (by decide)).1, (h2.2 (by decide)).1⟩

/-- C5: recording outcomes moves the breaker as specified: from closed, the
failure that brings the counter to the threshold 3 opens the circuit with a
deadline 30 seconds ahead; from half_open a single failure reopens with a
fresh 30-second deadline; and a success recorded from half_open, or from
closed with a nonzero failure count, stores the closed snapshot with the
counter zeroed. -/
theorem c5_record_outcome_transitions (s : CircuitBreakerSnapshot) (now : Nat) :
    (s.state = .closed → s.failureCount + 1 = FAILURE_THRESHOLD →
      recordFailure now s =
        { state := .opened, failureCount := FAILURE_THRESHOLD,
          lastFailureAt := some now, nextAttemptAt := some (now + OPEN_DURATION_MS) }) ∧
    (s.state = .half_open →
      recordFailure now s =
        { state := .opened, failureCount := s.failureCount + 1,
          lastFailureAt := some now, nextAttemptAt := some (now + OPEN_DURATION_MS) }) ∧
    ((s.state = .half_open ∨ (s.state = .closed ∧ s.failureCount ≠ 0)) →
      recordSuccess s =
        some { state := .closed, failureCount := 0, lastFailureAt := none,
               nextAttemptAt := none }) := by
  refine ⟨?_, ?_, ?_⟩
  · intro hc hth
    have : ¬ (s.state = .half_open ∧ HALF_OPEN_MAX_FAILURES ≤ s.failureCount + 1) := by
      rintro ⟨h, -⟩
      rw [hc] at h
      exact absurd h (by decide)
    simp [recordFailure, this, hth, FAILURE_THRESHOLD]
  · intro hh
    simp [recordFailure, hh, HALF_OPEN_MAX_FAILURES]
  · rintro (hh | ⟨hc, hf⟩)
    · have : s.state ≠ .closed ∨ s.failureCount ≠ 0 := Or.inl (by rw [hh]; decide)
      simp [recordSuccess, this, getDefaultState]
    · simp [recordSuccess, Or.inr hf, getDefaultState]

/-- Witness for C5: the third failure from a closed snapshot with two
failures opens with deadline 1030000; a half-open failure reopens; a
half-open success resets. -/
theorem c5_witness :
    recordFailure 1000000
      { state := .closed, failureCount := 2, lastFailureAt := some 5, nextAttemptAt := none } =
      { state := .opened, failureCount := 3, lastFailureAt := some 1000000,
        nextAttemptAt := some 1030000 } ∧
    recordFailure 1000000
      { state := .half_open, failureCount := 3, lastFailureAt := some 5, nextAttemptAt := none } =
      { state := .opened, failureCount := 4, lastFailureAt := some 1000000,
        nextAttemptAt := some 1030000 } ∧
    recordSuccess
      { state := .half_open, failureCount := 3, lastFailureAt := some 5, nextAttemptAt := none } =
      some { state := .closed, failureCount := 0, lastFailureAt := none, nextAttemptAt := none } := by
  refine ⟨?_, ?_, ?_⟩
  · exact (c5_record_outcome_transitions
      { state := .closed, failureCount := 2, lastFailureAt := some 5, nextAttemptAt := none }
      1000000).1 rfl (by decide)
  · exact (c5_record_outcome_transitions
      { state := .half_open, failureCount := 3, lastFailureAt := some 5, nextAttemptAt := none }
      1000000).2.1 rfl
  · exact (c5_record_outcome_transitions
      { state := .half_open, failureCount := 3, lastFailureAt := some 5, nextAttemptAt := none }
      1000000).2.2 (Or.inl rfl)

/-- C6: resolving an account whose plan expiry is in the past returns the
free inactive plan and durably rewrites the row to free with the expiry
cleared, so a later resolution at any time also returns free; resolving a
missing account throws Account not found, which the rate-limit middleware
surfaces as a 404 reply. -/
theorem c6_plan_lazy_downgrade (db : AccountsDb) (st : CounterStore) (aid : String)
    (row : AccountRow) (t now now2 : Nat)
    (hrow : db aid = some row) (hexp : row.plan_expires_at = some t) (hpast : t < now) :
    (∃ db2 : AccountsDb,
      getAccountPlan db now aid = .ok ({ plan := "free", isActive := false }, db2) ∧
      db2 aid = some { plan := some "free", plan_tier := "free", plan_expires_at := none } ∧
      getAccountPlan db2 now2 aid = .ok ({ plan := "free", isActive := false }, db2)) ∧
    (∀ (db3 : AccountsDb) (aid2 : String) (now3 : Nat), db3 aid2 = none →
      getAccountPlan db3 now3 aid2 = .error "Account not found" ∧
      (rateLimitMiddleware db3 st now3 (some aid2)).1 =
        { sentStatus := some 404, errorCode := none, headers := [] }) := by
  constructor
  · refine ⟨fun id => if id = aid then
        some { plan := some "free", plan_tier := "free", plan_expires_at := none }
      else db id, ?_, ?_, ?_⟩
    · simp [getAccountPlan, hrow, hexp, hpast]
    · simp
    · simp [getAccountPlan]
  · intro db3 aid2 now3 hmiss
    refine ⟨by simp [getAccountPlan, hmiss], ?_⟩
    simp [rateLimitMiddleware, getAccountPlan, hmiss]

/-- C7: a request from a free-tier account whose body sets custom
instructions or a saved preset (any truthy value) is answered 403 with code
PLAN_UPGRADE_REQUIRED, with no upstream model call and no suggestion job
record written, in either execution mode. -/
theorem c7_free_tier_gate (useQueue : Bool) (db : AccountsDb)
    (circuit : CircuitBreakerSnapshot) (now : Nat) (aid uid requestId queueJobId : String)
    (body : SuggestBody) (claudeOutcome : Except String String) (row : AccountRow)
    (hrow : db aid = some row) (hplan : row.plan.getD row.plan_tier = "free")
    (hexp : row.plan_expires_at = none)
    (hset : isTruthy body.customInstructions = true ∨ isTruthy body.savedPresetId = true) :
    (suggestHandler useQueue db circuit now (some aid) (some uid) requestId queueJobId
        body claudeOutcome).1.status = 403 ∧
    (suggestHandler useQueue db circuit now (some aid) (some uid) requestId queueJobId
        body claudeOutcome).1.code = some "PLAN_UPGRADE_REQUIRED" ∧
    Effect.claudeCall ∉
      (suggestHandler useQueue db circuit now (some aid) (some uid) requestId queueJobId
        body claudeOutcome).2.1 ∧
    (∀ (a j : String) (r : SuggestionJobResult),
      Effect.jobWrite a j r ∉
        (suggestHandler useQueue db circuit now (some aid) (some uid) requestId queueJobId
          body claudeOutcome).2.1) := by
  have hresolve : getAccountPlan db now aid =
      .ok ({ plan := "free", isActive := "free" != "free" }, db) := by
    simp [getAccountPlan, hrow, hexp, hplan]
  have hcond : ((({ plan := "free", isActive := "free" != "free" } : AccountPlan)).plan = "free"
      ∧ (isTruthy body.customInstructions || isTruthy body.savedPresetId) = true) := by
    refine ⟨rfl, ?_⟩
    rcases hset with h | h <;> simp [h]
  unfold suggestHandler
  simp only [hresolve]
  simp [hcond]

/-- Witness for C7: a concrete free account sending customInstructions is
refused with 403 PLAN_UPGRADE_REQUIRED and neither calls the model nor
writes a job. -/
theorem c7_witness :
    ((fun id => if id = "acct" then
        some { plan := none, plan_tier := "free", plan_expires_at := none }
      else none) : AccountsDb) "acct" =
      some { plan := none, plan_tier := "free", plan_expires_at := none } ∧
    isTruthy (some "be brief") = true ∧
    (suggestHandler false
      (fun id => if id = "acct" then
        some { plan := none, plan_tier := "free", plan_expires_at := none }
      else none)
      getDefaultState 7 (some "acct") (some "user") "req1" "q1"
      { fbThreadId := "fb1", conversationGoal := some "sell_item",
        customInstructions := some "be brief", savedPresetId := none }
      (.ok "ignored")).1.status = 403 := by
  refine ⟨by simp, by decide, ?_⟩
  exact (c7_free_tier_gate false
    (fun id => if id = "acct" then
      some { plan := none, plan_tier := "free", plan_expires_at := none }
    else none)
    getDefaultState 7 "acct" "user" "req1" "q1"
    { fbThreadId := "fb1", conversationGoal := some "sell_item",
      customInstructions := some "be brief", savedPresetId := none }
    (.ok "ignored")
    { plan := none, plan_tier := "free", plan_expires_at := none }
    (by simp) rfl rfl (Or.inl (by decide))).1

/-- C10: the job-result reader returns null rather than throwing whenever
the stored value is absent, is not valid JSON, or parses to a value without
a string jobId, status or updatedAt property, and the status route then
replies 404 for any such record. -/
theorem c10_result_guard :
    getSuggestionResult none = none ∧
    (∀ txt : String, jsonParse txt = none → getSuggestionResult (some txt) = none) ∧
    (∀ (txt : String) (v : Json), jsonParse txt = some v →
      (isStringField (v.getField "jobId") = false ∨
       isStringField (v.getField "status") = false ∨
       isStringField (v.getField "updatedAt") = false) →
      getSuggestionResult (some txt) = none) ∧
    (∀ (acc jid : String) (stored : Option String), jid ≠ "" →
      getSuggestionResult stored = none →
      suggestStatusHandler (some acc) (some jid) stored = .notFound) := by
  refine ⟨rfl, ?_, ?_, ?_⟩
  · intro txt h
    simp [getSuggestionResult, h]
  · intro txt v hv hbad
    have : (isStringField (v.getField "jobId") &&
        isStringField (v.getField "status") &&
        isStringField (v.getField "updatedAt")) = false := by
      rcases hbad with h | h | h <;> simp [h]
    simp [getSuggestionResult, hv, this]
  · intro acc jid stored hjid hres
    simp [suggestStatusHandler, hjid, hres]

/-- Witness for C10: a corrupted record (valid JSON with a numeric jobId)
resolves to null and the status route replies 404 for it. -/
theorem c10_witness :
    jsonParse "\x7b\"jobId\":5\x7d" = some (.obj [("jobId", .num 5)]) ∧
    getSuggestionResult (some "\x7b\"jobId\":5\x7d") = none ∧
    suggestStatusHandler (some "acct") (some "job9") (some "\x7b\"jobId\":5\x7d") = .notFound := by
  have hv : jsonParse "\x7b\"jobId\":5\x7d" = some (.obj [("jobId", .num 5)]) := by rfl
  have h1 := c10_result_guard.2.2.1 "\x7b\"jobId\":5\x7d" (.obj [("jobId", .num 5)]) hv
    (Or.inl (by rfl))
  exact ⟨hv, h1, c10_result_guard.2.2.2 "acct" "job9" (some "\x7b\"jobId\":5\x7d")
    (by decide) h1⟩

/-- C9: the response validator is a pure function — the same raw text and
goal always produce the same result — and every suggestion it returns has a
message of at most 200 characters, whatever the input length. -/
theorem c9_validator_deterministic_bounded :
    (∀ raw goal : String, parseClaudeResponse raw goal = parseClaudeResponse raw goal) ∧
    (∀ (raw goal : String) (s : SuggestionResponse),
      parseClaudeResponse raw goal = .ok s → s.suggestedMessage.length ≤ 200) := by
  refine ⟨fun _ _ => rfl, ?_⟩
  intro raw goal s h
  obtain ⟨v, msg, score, reasoning, nextAction, -, -, -, -, -, -, hs⟩ :=
    parseClaudeResponse_ok_shape raw goal s h
  rw [hs]
  exact strTake_length_le (strTrim msg) 200

/-- A valid fenced payload used to exercise the validator. -/
def okRaw : String :=
  "```json\n\x7b\"suggestedMessage\":\"  Hi there \",\"intentScore\":0.5,\"reasoning\":\"buyer ready\",\"nextAction\":\"close\"\x7d\n```"

/-- Witness for C9 at the concrete valid payload: parsing succeeds and the
returned message length is within the bound. -/
theorem c9_witness :
    parseClaudeResponse okRaw "general_assistance" =
      .ok { suggestedMessage := "Hi there", intentScore := mkRat 1 2,
            reasoning := "buyer ready", nextAction := "close" } ∧
    (({ suggestedMessage := "Hi there", intentScore := mkRat 1 2,
        reasoning := "buyer ready", nextAction := "close" } : SuggestionResponse)).suggestedMessage.length ≤ 200 := by
  have h : parseClaudeResponse okRaw "general_assistance" =
      .ok { suggestedMessage := "Hi there", intentScore := mkRat 1 2,
            reasoning := "buyer ready", nextAction := "close" } := by rfl
  exact ⟨h, c9_validator_deterministic_bounded.2 okRaw "general_assistance" _ h⟩

/-- C1 as amended: a payload whose intentScore lies outside the unit
interval is rejected by the schema guard (the clamp in the return path is
unreachable for it), and whenever the validator does return a suggestion the
intent score is the payload's score unchanged — the clamp is an identity on
the scores the guard admits. -/
theorem c1_out_of_range_score_rejected :
    (∀ (raw goal : String) (v : Json) (q : Rat),
      jsonParse (stripFence raw) = some v →
      v.getField "intentScore" = some (.num q) →
      (q < 0 ∨ 1 < q) →
      parseClaudeResponse raw goal =
        .error "Claude response does not match SuggestionResponse schema") ∧
    (∀ (raw goal : String) (v : Json) (q : Rat) (s : SuggestionResponse),
      jsonParse (stripFence raw) = some v →
      v.getField "intentScore" = some (.num q) →
      parseClaudeResponse raw goal = .ok s →
      s.intentScore = q ∧ 0 ≤ q ∧ q ≤ 1) := by
  constructor
  · intro raw goal v q hv hq hout
    have hfac : (decide (0 ≤ q) && decide (q ≤ 1)) = false := by
      rcases hout with h | h
      · simp [decide_eq_false_iff_not, not_le.mpr h]
      · simp [decide_eq_false_iff_not, not_le.mpr h]
    have hschema : isSuggestionResponse v = false := by
      unfold isSuggestionResponse
      rw [hq]
      simp only [hfac, Bool.and_false, Bool.false_and]
    unfold parseClaudeResponse
    rw [hv]
    simp [hschema]
  · intro raw goal v q s hv hq h
    obtain ⟨v2, msg, score, reasoning, nextAction, hv2, hschema, -, hscore, -, -, hs⟩ :=
      parseClaudeResponse_ok_shape raw goal s h
    rw [hv] at hv2
    obtain rfl : v = v2 := by injection hv2
    rw [hq] at hscore
    obtain rfl : q = score := by
      have := (Option.some.injEq _ _).mp hscore
      exact (Json.num.injEq _ _).mp this
    obtain ⟨h0, h1⟩ := isSuggestionResponse_score_bounds hschema hq
    refine ⟨?_, h0, h1⟩
    rw [hs]
    exact clamp_identity q h0 h1

/-- The fenced payload of the C1 scenario, valid except for an intentScore
of 1.4. -/
def c1Raw : String :=
  "```json\n\x7b\"suggestedMessage\":\"Hi there\",\"intentScore\":1.4,\"reasoning\":\"buyer ready\",\"nextAction\":\"ask_availability\"\x7d\n```"

/-- Counterexample to C1 as stated: on the scenario's payload with
intentScore 1.4 the validator does not clamp and return the fields — it
rejects with the schema-mismatch error, in particular it does not return
the suggestion the claim describes (score clamped to 1, other fields
unmodified). -/
theorem c1_counterexample :
    parseClaudeResponse c1Raw "sell_item" =
      .error "Claude response does not match SuggestionResponse schema" ∧
    parseClaudeResponse c1Raw "sell_item" ≠
      .ok { suggestedMessage := "Hi there", intentScore := 1,
            reasoning := "buyer ready", nextAction := "ask_availability" } := by
  have h : parseClaudeResponse c1Raw "sell_item" =
      .error "Claude response does not match SuggestionResponse schema" := by rfl
  refine ⟨h, ?_⟩
  rw [h]
  intro hcontra
  cases hcontra

/-- The parsed object of the C1 scenario payload. -/
def c1Val : Json :=
  .obj [("suggestedMessage", .str "Hi there"), ("intentScore", .num (mkRat 14 10)),
        ("reasoning", .str "buyer ready"), ("nextAction", .str "ask_availability")]

/-- Witness for the amended C1 at the scenario payload: the score 1.4 is out
of range and the validator rejects it with the schema error. -/
theorem c1_witness :
    (jsonParse (stripFence c1Raw) = some c1Val ∧ (1 : Rat) < mkRat 14 10) ∧
    parseClaudeResponse c1Raw "general_assistance" =
      .error "Claude response does not match SuggestionResponse schema" :=
  ⟨⟨by rfl, by decide⟩,
   c1_out_of_range_score_rejected.1 c1Raw "general_assistance" c1Val (mkRat 14 10)
     (by rfl) (by rfl) (Or.inr (by decide))⟩

/-- C8: a model response that passes JSON parsing and the schema guard but
whose message matches a forbidden meta-content pattern, or contains
vehicle-sale language while the conversation goal is not sell_item, makes
the validator throw; the inline orchestrator then records the job as failed
with that error and surfaces it in the 500 reply. -/
theorem c8_forbidden_content_fails_job (db : AccountsDb) (now : Nat)
    (aid uid requestId queueJobId : String) (body : SuggestBody) (row : AccountRow)
    (content goal : String) (v : Json) (msg : String)
    (hrow : db aid = some row) (hplanNotFree : row.plan.getD row.plan_tier ≠ "free")
    (hexp : row.plan_expires_at = none)
    (hgoal : body.conversationGoal = some goal)
    (hv : jsonParse (stripFence content) = some v)
    (hschema : isSuggestionResponse v = true)
    (hmsg : v.getField "suggestedMessage" = some (.str msg))
    (hbad : forbiddenPatterns.any (fun p => strContainsCI msg p) = true ∨
      (goal ≠ "sell_item" ∧
        (strContainsCI msg "vehicle" || strContainsCI msg "test drive" ||
          strContainsCI msg "inventory") = true)) :
    ∃ e : String,
      parseClaudeResponse content goal = .error e ∧
      (suggestHandler false db getDefaultState now (some aid) (some uid) requestId
          queueJobId body (.ok content)).1.status = 500 ∧
      (suggestHandler false db getDefaultState now (some aid) (some uid) requestId
          queueJobId body (.ok content)).1.message = some e ∧
      Effect.jobWrite aid requestId
        { jobId := requestId, status := "failed", suggestion := none,
          error := some e, updatedAt := toString now } ∈
        (suggestHandler false db getDefaultState now (some aid) (some uid) requestId
          queueJobId body (.ok content)).2.1 := by
  have hconj := hschema
  unfold isSuggestionResponse at hconj
  simp only [Bool.and_eq_true] at hconj
  obtain ⟨⟨⟨⟨-, -⟩, hB⟩, hC⟩, hD⟩ := hconj
  obtain ⟨score, hscore, -⟩ := matchNum_true hB
  obtain ⟨reasoning, hreas, -⟩ := matchStr_true hC
  obtain ⟨nextAction, hnext, -⟩ := matchStr_true hD
  have hparse : ∃ e : String, parseClaudeResponse content goal = .error e ∧
      (e = "Claude response contained disallowed meta content" ∨
       e = "Car language leaked into non-sell flow") := by
    unfold parseClaudeResponse
    rw [hv]
    simp only [hschema, if_true, hmsg, hscore, hreas, hnext]
    by_cases hf :
        (forbiddenPatterns.any (fun p => strContainsCI msg p || strContainsCI reasoning p)) = true
    · refine ⟨"Claude response contained disallowed meta content", ?_, Or.inl rfl⟩
      simp [hf]
    · have hveh : goal ≠ "sell_item" ∧
          (strContainsCI msg "vehicle" || strContainsCI msg "test drive" ||
            strContainsCI msg "inventory") = true := by
        rcases hbad with hm | hv2
        · exfalso
          apply hf
          rw [List.any_eq_true] at hm ⊢
          obtain ⟨p, hp, hpt⟩ := hm
          exact ⟨p, hp, by simp [hpt]⟩
        · exact hv2
      refine ⟨"Car language leaked into non-sell flow", ?_, Or.inr rfl⟩
      simp [hf, hveh]
  obtain ⟨e, hpe, -⟩ := hparse
  have hresolve : getAccountPlan db now aid =
      .ok ({ plan := row.plan.getD row.plan_tier,
             isActive := row.plan.getD row.plan_tier != "free" }, db) := by
    simp [getAccountPlan, hrow, hexp]
  have hplanF : (row.plan.getD row.plan_tier = "free") = False := by
    simp [hplanNotFree]
  have hgoalD : body.conversationGoal.getD "general_assistance" = goal := by
    rw [hgoal]
    rfl
  refine ⟨e, hpe, ?_, ?_, ?_⟩ <;>
    simp [suggestHandler, hresolve, hplanF, hgoalD, hpe,
      show assertCircuitClosed now getDefaultState = .ok none from rfl]

/-- The C8 scenario payload whose suggested message starts with the
as-an-AI-language-model disclosure. -/
def metaRaw : String :=
  "\x7b\"suggestedMessage\":\"As an AI language model I cannot\",\"intentScore\":0.5,\"reasoning\":\"r\",\"nextAction\":\"close\"\x7d"

/-- The parsed object of the C8 scenario payload. -/
def metaVal : Json :=
  .obj [("suggestedMessage", .str "As an AI language model I cannot"),
        ("intentScore", .num (mkRat 1 2)), ("reasoning", .str "r"),
        ("nextAction", .str "close")]

/-- Witness for C8: the scenario message makes the validator throw the
disallowed-meta-content error and the inline handler records the failed job
and replies 500 with it. -/
theorem c8_witness :
    ∃ e : String,
      parseClaudeResponse metaRaw "sell_item" = .error e ∧
      (suggestHandler false
        (fun id => if id = "acct" then
          some { plan := some "pro", plan_tier := "pro", plan_expires_at := none }
        else none)
        getDefaultState 7 (some "acct") (some "user") "req1" "q1"
        { fbThreadId := "fb1", conversationGoal := some "sell_item",
          customInstructions := none, savedPresetId := none }
        (.ok metaRaw)).1.status = 500 ∧
      (suggestHandler false
        (fun id => if id = "acct" then
          some { plan := some "pro", plan_tier := "pro", plan_expires_at := none }
        else none)
        getDefaultState 7 (some "acct") (some "user") "req1" "q1"
        { fbThreadId := "fb1", conversationGoal := some "sell_item",
          customInstructions := none, savedPresetId := none }
        (.ok metaRaw)).1.message = some e ∧
      Effect.jobWrite "acct" "req1"
        { jobId := "req1", status := "failed", suggestion := none,
          error := some e, updatedAt := toString 7 } ∈
        (suggestHandler false
          (fun id => if id = "acct" then
            some { plan := some "pro", plan_tier := "pro", plan_expires_at := none }
          else none)
          getDefaultState 7 (some "acct") (some "user") "req1" "q1"
          { fbThreadId := "fb1", conversationGoal := some "sell_item",
            customInstructions := none, savedPresetId := none }
          (.ok metaRaw)).2.1 :=
  c8_forbidden_content_fails_job
    (fun id => if id = "acct" then
      some { plan := some "pro", plan_tier := "pro", plan_expires_at := none }
    else none)
    7 "acct" "user" "req1" "q1"
    { fbThreadId := "fb1", conversationGoal := some "sell_item",
      customInstructions := none, savedPresetId := none }
    { plan := some "pro", plan_tier := "pro", plan_expires_at := none }
    metaRaw "sell_item" metaVal "As an AI language model I cannot"
    (by simp) (by decide) rfl rfl (by rfl) (by rfl) (by rfl)
    (Or.inl (by rfl))

/-- The free-tier table and counter store of the C3 counterexample: the
account a1 has used its full daily quota of 15 and the counter is alive
until the end of day 0. -/
def c3Db : AccountsDb := fun id =>
  if id = "a1" then some { plan := none, plan_tier := "free", plan_expires_at := none }
  else none

/-- Counter store holding the day-0 counter of a1 at 15. -/
def c3St : CounterStore := fun k =>
  if k = "rate_limit:a1:0" then some (15, some 86400000) else none

/-- Counterexample to C3 as stated: the sixteenth request of the day is
denied with 429 RATE_LIMIT_EXCEEDED, and the denied reply carries no
X-RateLimit headers at all — the denial is sent before the header-setting
lines run. -/
theorem c3_counterexample :
    (rateLimitMiddleware c3Db c3St 1000 (some "a1")).1 =
      { sentStatus := some 429, errorCode := some "RATE_LIMIT_EXCEEDED", headers := [] } := by
  rfl

/-- C3 as amended: for a request that passes authentication and plan lookup
on a known tier, the middleware sets the X-RateLimit-Limit and
X-RateLimit-Remaining headers only when the request is admitted (the count
stays within the limit); a denied request is answered 429
RATE_LIMIT_EXCEEDED with an empty header list. -/
theorem c3_headers_only_on_admitted (db : AccountsDb) (st : CounterStore) (now : Nat)
    (aid : String) (row : AccountRow) (limit : Nat)
    (hrow : db aid = some row) (hexp : row.plan_expires_at = none)
    (hlim : LIMITS (row.plan.getD row.plan_tier) = some limit) :
    ((counterIncr st now (rateLimitKey aid now)).1 ≤ limit →
      (rateLimitMiddleware db st now (some aid)).1.sentStatus = none ∧
      ("X-RateLimit-Limit", toString limit) ∈
        (rateLimitMiddleware db st now (some aid)).1.headers ∧
      ("X-RateLimit-Remaining",
        toString (limit - (counterIncr st now (rateLimitKey aid now)).1)) ∈
        (rateLimitMiddleware db st now (some aid)).1.headers) ∧
    (limit < (counterIncr st now (rateLimitKey aid now)).1 →
      (rateLimitMiddleware db st now (some aid)).1 =
        { sentStatus := some 429, errorCode := some "RATE_LIMIT_EXCEEDED", headers := [] }) := by
  have hresolve : getAccountPlan db now aid =
      .ok ({ plan := row.plan.getD row.plan_tier,
             isActive := row.plan.getD row.plan_tier != "free" }, db) := by
    simp [getAccountPlan, hrow, hexp]
  constructor
  · intro hle
    have hnot : ¬ limit < (counterIncr st now (rateLimitKey aid now)).1 := not_lt.mpr hle
    refine ⟨?_, ?_, ?_⟩ <;> simp [rateLimitMiddleware, hresolve, hlim, hnot]
  · intro hgt
    simp [rateLimitMiddleware, hresolve, hlim, hgt]

/-- Witness for the amended C3: an admitted request (count one of fifteen)
carries the limit and remaining headers, while the concrete denied request
of the counterexample store is refused without headers. -/
theorem c3_witness :
    ((counterIncr (fun _ => none) 1000 (rateLimitKey "a1" 1000)).1 ≤ 15) ∧
    (rateLimitMiddleware c3Db (fun _ => none) 1000 (some "a1")).1.sentStatus = none ∧
    ("X-RateLimit-Limit", toString 15) ∈
      (rateLimitMiddleware c3Db (fun _ => none) 1000 (some "a1")).1.headers ∧
    ("X-RateLimit-Remaining", toString (15 - 1)) ∈
      (rateLimitMiddleware c3Db (fun _ => none) 1000 (some "a1")).1.headers := by
  have h := c3_headers_only_on_admitted c3Db (fun _ => none) 1000 "a1"
    { plan := none, plan_tier := "free", plan_expires_at := none } 15
    (by simp [c3Db]) rfl (by rfl)
  have hc : (counterIncr (fun _ => none) 1000 (rateLimitKey "a1" 1000)).1 = 1 := by rfl
  have hle : (counterIncr (fun _ => none) 1000 (rateLimitKey "a1" 1000)).1 ≤ 15 := by
    rw [hc]
    decide
  obtain ⟨h1, h2, h3⟩ := h.1 hle
  rw [hc] at h3
  exact ⟨hle, h1, h2, h3⟩

/-- An instant is strictly before the UTC midnight that follows it. -/
theorem day_lt (t d : Nat) (hday : t / msPerDay = d) : t < (d + 1) * msPerDay := by
  have h1 := Nat.div_add_mod t msPerDay
  have h2 : t % msPerDay < msPerDay := Nat.mod_lt _ (by simp [msPerDay])
  simp only [msPerDay] at *
  omega

/-- Following midnight written through the day number. -/
theorem endOfDay_eq (t d : Nat) (hday : t / msPerDay = d) :
    endOfDayUtc t = (d + 1) * msPerDay := by
  unfold endOfDayUtc
  rw [hday]

/-- The expiry set on the first increment of the day lies within the final
second before UTC midnight: the TTL is the floor of the seconds remaining,
so the deadline precedes midnight by less than a second. -/
theorem first_expiry_bounds (t d : Nat) (hday : t / msPerDay = d)
    (hb : t + 1000 ≤ (d + 1) * msPerDay) :
    (d + 1) * msPerDay - 1000 < t + max 1 ((endOfDayUtc t - t) / 1000) * 1000 ∧
    t + max 1 ((endOfDayUtc t - t) / 1000) * 1000 ≤ (d + 1) * msPerDay := by
  rw [endOfDay_eq t d hday]
  have hq : 1 ≤ ((d + 1) * msPerDay - t) / 1000 := by
    simp only [msPerDay] at *
    omega
  rw [Nat.max_eq_right hq]
  have hdm := Nat.div_add_mod ((d + 1) * msPerDay - t) 1000
  have hml : ((d + 1) * msPerDay - t) % 1000 < 1000 := Nat.mod_lt _ (by norm_num)
  simp only [msPerDay] at *
  omega

/-- The counter key computed at any instant of day d. -/
theorem rateLimitKey_eq (aid : String) (t d : Nat) (hday : t / msPerDay = d) :
    rateLimitKey aid t = "rate_limit:" ++ aid ++ ":" ++ toString d := by
  unfold rateLimitKey
  rw [hday]

/-- One middleware step on a live same-day counter at count c: the table is
unchanged, the counter advances to c+1 keeping its expiry, and the request
is denied exactly when c+1 exceeds the limit, the denial reply being 429
RATE_LIMIT_EXCEEDED with no headers. -/
theorem rl_step_general (db : AccountsDb) (st : CounterStore) (aid : String)
    (row : AccountRow) (limit t d c e : Nat)
    (hrow : db aid = some row) (hexp : row.plan_expires_at = none)
    (hlim : LIMITS (row.plan.getD row.plan_tier) = some limit)
    (hday : t / msPerDay = d)
    (hst : st ("rate_limit:" ++ aid ++ ":" ++ toString d) = some (c, some e))
    (ht : t < e) (hc : 1 ≤ c) :
    (rateLimitMiddleware db st t (some aid)).2.2 = db ∧
    (rateLimitMiddleware db st t (some aid)).2.1
      ("rate_limit:" ++ aid ++ ":" ++ toString d) = some (c + 1, some e) ∧
    ((rateLimitMiddleware db st t (some aid)).1.sentStatus =
      if limit < c + 1 then some 429 else none) ∧
    (limit < c + 1 → (rateLimitMiddleware db st t (some aid)).1 =
      { sentStatus := some 429, errorCode := some "RATE_LIMIT_EXCEEDED", headers := [] }) := by
  have hkey := rateLimitKey_eq aid t d hday
  have hget : counterGet st t (rateLimitKey aid t) = some (c, some e) := by
    rw [hkey]
    unfold counterGet
    rw [hst]
    show (if e ≤ t then none else some (c, some e)) = some (c, some e)
    rw [if_neg (by omega)]
  have hincr1 : (counterIncr st t (rateLimitKey aid t)).1 = c + 1 := by
    unfold counterIncr
    rw [hget]
  have hincr2 : (counterIncr st t (rateLimitKey aid t)).2
      ("rate_limit:" ++ aid ++ ":" ++ toString d) = some (c + 1, some e) := by
    unfold counterIncr
    rw [hget, ← hkey]
    simp
  have hresolve : getAccountPlan db t aid =
      .ok ({ plan := row.plan.getD row.plan_tier,
             isActive := row.plan.getD row.plan_tier != "free" }, db) := by
    simp [getAccountPlan, hrow, hexp]
  have hne1 : ¬ ((counterIncr st t (rateLimitKey aid t)).1 = 1) := by
    rw [hincr1]
    omega
  refine ⟨?_, ?_, ?_, ?_⟩
  · by_cases hl : limit < (counterIncr st t (rateLimitKey aid t)).1 <;>
      simp [rateLimitMiddleware, hresolve, hlim, hl]
  · by_cases hl : limit < (counterIncr st t (rateLimitKey aid t)).1 <;>
      simp [rateLimitMiddleware, hresolve, hlim, hl, hne1, hincr2]
  · by_cases hl : limit < c + 1
    · simp [rateLimitMiddleware, hresolve, hlim, hincr1, hl]
    · simp [rateLimitMiddleware, hresolve, hlim, hincr1, hl]
  · intro hl
    simp [rateLimitMiddleware, hresolve, hlim, hincr1, hl]

/-- The first middleware step of a day: the counter is created at one with
its expiry set from the floor of the seconds to midnight, and the request is
denied only when the limit is below one. -/
theorem rl_step_first (db : AccountsDb) (st : CounterStore) (aid : String)
    (row : AccountRow) (limit t d : Nat)
    (hrow : db aid = some row) (hexp : row.plan_expires_at = none)
    (hlim : LIMITS (row.plan.getD row.plan_tier) = some limit)
    (hday : t / msPerDay = d)
    (hst : st ("rate_limit:" ++ aid ++ ":" ++ toString d) = none) :
    (rateLimitMiddleware db st t (some aid)).2.2 = db ∧
    (rateLimitMiddleware db st t (some aid)).2.1
      ("rate_limit:" ++ aid ++ ":" ++ toString d) =
      some (1, some (t + max 1 ((endOfDayUtc t - t) / 1000) * 1000)) ∧
    ((rateLimitMiddleware db st t (some aid)).1.sentStatus =
      if limit < 1 then some 429 else none) ∧
    (limit < 1 → (rateLimitMiddleware db st t (some aid)).1 =
      { sentStatus := some 429, errorCode := some "RATE_LIMIT_EXCEEDED", headers := [] }) := by
  have hkey := rateLimitKey_eq aid t d hday
  have hget : counterGet st t (rateLimitKey aid t) = none := by
    rw [hkey]
    unfold counterGet
    rw [hst]
  have hincr1 : (counterIncr st t (rateLimitKey aid t)).1 = 1 := by
    unfold counterIncr
    rw [hget]
  have hincr2 : (counterIncr st t (rateLimitKey aid t)).2 (rateLimitKey aid t) =
      some (1, none) := by
    unfold counterIncr
    rw [hget]
    simp
  have hexpire : counterExpire (counterIncr st t (rateLimitKey aid t)).2 t
      (rateLimitKey aid t) (max 1 ((endOfDayUtc t - t) / 1000))
      ("rate_limit:" ++ aid ++ ":" ++ toString d) =
      some (1, some (t + max 1 ((endOfDayUtc t - t) / 1000) * 1000)) := by
    unfold counterExpire
    rw [← hkey]
    simp [hincr2]
  have hresolve : getAccountPlan db t aid =
      .ok ({ plan := row.plan.getD row.plan_tier,
             isActive := row.plan.getD row.plan_tier != "free" }, db) := by
    simp [getAccountPlan, hrow, hexp]
  refine ⟨?_, ?_, ?_, ?_⟩
  · by_cases hl : limit < (counterIncr st t (rateLimitKey aid t)).1 <;>
      simp [rateLimitMiddleware, hresolve, hlim, hl]
  · by_cases hl : limit = 0 <;>
      simp [rateLimitMiddleware, hresolve, hlim, hl, hincr1, hexpire]
  · by_cases hl : limit < 1
    · simp [rateLimitMiddleware, hresolve, hlim, hincr1, hl]
    · simp [rateLimitMiddleware, hresolve, hlim, hincr1, hl]
  · intro hl
    simp [rateLimitMiddleware, hresolve, hlim, hincr1, hl]

/-- Running any same-day requests against a live counter at count k: the
i-th of them is denied exactly when k+i+1 exceeds the limit, and the counter
ends at k plus the number of requests with its expiry untouched. -/
theorem runRequests_steady (db : AccountsDb) (aid : String) (row : AccountRow)
    (limit d e : Nat)
    (hrow : db aid = some row) (hexp : row.plan_expires_at = none)
    (hlim : LIMITS (row.plan.getD row.plan_tier) = some limit) :
    ∀ (ts : List Nat) (st : CounterStore) (k : Nat), 1 ≤ k →
      (∀ t ∈ ts, t / msPerDay = d ∧ t < e) →
      st ("rate_limit:" ++ aid ++ ":" ++ toString d) = some (k, some e) →
      (runRequests db st aid ts).1.length = ts.length ∧
      (∀ i (hi : i < (runRequests db st aid ts).1.length),
        (((runRequests db st aid ts).1.get ⟨i, hi⟩).sentStatus =
          if limit < k + i + 1 then some 429 else none) ∧
        (limit < k + i + 1 → (runRequests db st aid ts).1.get ⟨i, hi⟩ =
          { sentStatus := some 429, errorCode := some "RATE_LIMIT_EXCEEDED", headers := [] })) ∧
      (runRequests db st aid ts).2 ("rate_limit:" ++ aid ++ ":" ++ toString d) =
        some (k + ts.length, some e) := by
  intro ts
  induction ts with
  | nil =>
    intro st k hk hts hst
    refine ⟨rfl, ?_, by simpa using hst⟩
    intro i hi
    exact absurd hi (by simp [runRequests])
  | cons t ts ih =>
    intro st k hk hts hst
    obtain ⟨hday, hlt⟩ := hts t (List.mem_cons_self t ts)
    obtain ⟨hdb, hkey, hsent, hdeny⟩ :=
      rl_step_general db st aid row limit t d k e hrow hexp hlim hday hst hlt hk
    have hrest := ih (rateLimitMiddleware db st t (some aid)).2.1 (k + 1) (by omega)
      (fun t2 ht2 => hts t2 (List.mem_cons_of_mem _ ht2)) hkey
    have hunfold : runRequests db st aid (t :: ts) =
        ((rateLimitMiddleware db st t (some aid)).1 ::
          (runRequests db (rateLimitMiddleware db st t (some aid)).2.1 aid ts).1,
         (runRequests db (rateLimitMiddleware db st t (some aid)).2.1 aid ts).2) := by
      simp only [runRequests]
      rw [hdb]
    rw [hunfold]
    refine ⟨by simp [hrest.1], ?_, ?_⟩
    · intro i hi
      cases i with
      | zero =>
        refine ⟨by simpa using hsent, ?_⟩
        intro hl
        simpa using hdeny (by omega)
      | succ j =>
        have hj : j < (runRequests db (rateLimitMiddleware db st t (some aid)).2.1 aid ts).1.length := by
          simpa using hi
        have := hrest.2.1 j hj
        have harith : k + 1 + j + 1 = k + (j + 1) + 1 := by omega
        rw [harith] at this
        exact ⟨by simpa using this.1, fun hl => by simpa using this.2 hl⟩
    · have : k + 1 + ts.length = k + (t :: ts).length := by simp; omega
      rw [← this]
      exact hrest.2.2

/-- C4 as amended: starting a UTC day with no counter, a run of requests at
instants of that day, each at least one second before the following
midnight, is admitted exactly while the post-increment count stays within
the plan limit — the request reaching exactly the limit passes, the next one
is the first denial (429 RATE_LIMIT_EXCEEDED) — and denial persists for the
rest of such a run; the counter key carries an expiry within the final
second before UTC midnight (the TTL is the floor of the seconds remaining,
so the key can lapse up to 999 milliseconds early, which is the only
correction to the claim). -/
theorem c4_daily_limit_admission (db : AccountsDb) (st : CounterStore) (aid : String)
    (row : AccountRow) (limit d : Nat) (ts : List Nat)
    (hrow : db aid = some row) (hexp : row.plan_expires_at = none)
    (hlim : LIMITS (row.plan.getD row.plan_tier) = some limit)
    (hkey : st ("rate_limit:" ++ aid ++ ":" ++ toString d) = none)
    (hts : ∀ t ∈ ts, t / msPerDay = d ∧ t + 1000 ≤ (d + 1) * msPerDay) :
    (runRequests db st aid ts).1.length = ts.length ∧
    (∀ i (hi : i < (runRequests db st aid ts).1.length),
      (i + 1 ≤ limit → ((runRequests db st aid ts).1.get ⟨i, hi⟩).sentStatus = none) ∧
      (limit < i + 1 → (runRequests db st aid ts).1.get ⟨i, hi⟩ =
        { sentStatus := some 429, errorCode := some "RATE_LIMIT_EXCEEDED", headers := [] })) ∧
    (ts ≠ [] → ∃ e,
      (runRequests db st aid ts).2 ("rate_limit:" ++ aid ++ ":" ++ toString d) =
        some (ts.length, some e) ∧
      (d + 1) * msPerDay - 1000 < e ∧ e ≤ (d + 1) * msPerDay) := by
  cases ts with
  | nil => exact ⟨rfl, fun i hi => absurd hi (by simp [runRequests]), fun h => absurd rfl h⟩
  | cons t0 rest =>
    obtain ⟨hday0, hb0⟩ := hts t0 (List.mem_cons_self t0 rest)
    obtain ⟨hdb, hkey1, hsent, hdeny⟩ :=
      rl_step_first db st aid row limit t0 d hrow hexp hlim hday0 hkey
    have hbounds := first_expiry_bounds t0 d hday0 hb0
    have hrest_cond : ∀ t ∈ rest, t / msPerDay = d ∧
        t < t0 + max 1 ((endOfDayUtc t0 - t0) / 1000) * 1000 := by
      intro t ht
      obtain ⟨h1, h2⟩ := hts t (List.mem_cons_of_mem _ ht)
      exact ⟨h1, by omega⟩
    have hsteady := runRequests_steady db aid row limit d
      (t0 + max 1 ((endOfDayUtc t0 - t0) / 1000) * 1000) hrow hexp hlim rest
      (rateLimitMiddleware db st t0 (some aid)).2.1 1 le_rfl hrest_cond hkey1
    have hunfold : runRequests db st aid (t0 :: rest) =
        ((rateLimitMiddleware db st t0 (some aid)).1 ::
          (runRequests db (rateLimitMiddleware db st t0 (some aid)).2.1 aid rest).1,
         (runRequests db (rateLimitMiddleware db st t0 (some aid)).2.1 aid rest).2) := by
      simp only [runRequests]
      rw [hdb]
    rw [hunfold]
    refine ⟨by simp [hsteady.1], ?_, ?_⟩
    · intro i hi
      cases i with
      | zero =>
        constructor
        · intro hle
          show (rateLimitMiddleware db st t0 (some aid)).1.sentStatus = none
          rw [hsent, if_neg (by omega)]
        · intro hl
          simpa using hdeny (by omega)
      | succ j =>
        have hj : j < (runRequests db (rateLimitMiddleware db st t0 (some aid)).2.1 aid rest).1.length := by
          simpa using hi
        have hv := hsteady.2.1 j hj
        have harith : 1 + j + 1 = j + 1 + 1 := by omega
        rw [harith] at hv
        constructor
        · intro hle
          have := hv.1
          rw [if_neg (by omega)] at this
          simpa using this
        · intro hl
          simpa using hv.2 (by omega)
    · intro hne
      refine ⟨t0 + max 1 ((endOfDayUtc t0 - t0) / 1000) * 1000, ?_, hbounds.1, hbounds.2⟩
      show (runRequests db (rateLimitMiddleware db st t0 (some aid)).2.1 aid rest).2
          ("rate_limit:" ++ aid ++ ":" ++ toString d) =
        some ((t0 :: rest).length, some (t0 + max 1 ((endOfDayUtc t0 - t0) / 1000) * 1000))
      rw [List.length_cons, Nat.add_comm rest.length 1]
      exact hsteady.2.2

/-- A one-account free-tier table used by the C4 counterexample. -/
def c4Db : AccountsDb := fun id =>
  if id = "a" then some { plan := none, plan_tier := "free", plan_expires_at := none }
  else none

/-- Sixteen requests through the day starting at 500 milliseconds past
midnight, then one more during the final half second of the same UTC day. -/
def c4Times : List Nat := ((List.range 16).map (fun k => 500 + 1000 * k)) ++ [86399600]

/-- Counterexample to C4 as stated: with the free limit of 15, requests one
to fifteen are admitted and the sixteenth is denied, but the seventeenth
request — at 86399600, still within the same UTC day — is admitted again:
the counter key's TTL was the floor of the seconds to midnight (86399
seconds from 500), so the key lapsed at 86399500, before midnight, and
denial did not persist until UTC midnight. -/
theorem c4_counterexample :
    (runRequests c4Db (fun _ => none) "a" c4Times).1.map (fun r => r.sentStatus) =
      List.replicate 15 none ++ [some 429, none] ∧
    c4Times.all (fun t => t / msPerDay == 0) = true ∧
    LIMITS "free" = some 15 := by
  exact ⟨by rfl, by rfl, by rfl⟩

/-- Witness for the amended C4 on two same-day requests against the free
limit: two replies come back and the counter ends at two with an expiry in
the final second of the day. -/
theorem c4_witness :
    (runRequests c4Db (fun _ => none) "a" [0, 1000]).1.length = [0, 1000].length ∧
    (∃ e, (runRequests c4Db (fun _ => none) "a" [0, 1000]).2
        ("rate_limit:" ++ "a" ++ ":" ++ toString 0) = some ([0, 1000].length, some e) ∧
      (0 + 1) * msPerDay - 1000 < e ∧ e ≤ (0 + 1) * msPerDay) := by
  have h := c4_daily_limit_admission c4Db (fun _ => none) "a"
    { plan := none, plan_tier := "free", plan_expires_at := none } 15 0 [0, 1000]
    (by simp [c4Db]) rfl (by rfl) rfl (by decide)
  exact ⟨h.1, h.2.2 (by decide)⟩

/-- Witness for C6 at a concrete one-account table with an expiry of 10
observed at time 11. -/
theorem c6_witness :
    (10 < 11) ∧
    (∃ db2 : AccountsDb,
      getAccountPlan
        (fun id => if id = "acct" then
            some { plan := some "pro", plan_tier := "pro", plan_expires_at := some 10 }
          else none) 11 "acct" = .ok ({ plan := "free", isActive := false }, db2) ∧
      db2 "acct" = some { plan := some "free", plan_tier := "free", plan_expires_at := none } ∧
      getAccountPlan db2 99 "acct" = .ok ({ plan := "free", isActive := false }, db2)) := by
  refine ⟨by decide, ?_⟩
  have h := c6_plan_lazy_downgrade
    (fun id => if id = "acct" then
        some { plan := some "pro", plan_tier := "pro", plan_expires_at := some 10 }
      else none)
    (fun _ => none) "acct"
    { plan := some "pro", plan_tier := "pro", plan_expires_at := some 10 }
    10 11 99 (by simp) rfl (by decide)
  exact h.1

end Marketplace
